import Mathlib

/-!
Verification development for the docker compute backend (`backend/docker.go`).

The Go code is shallowly embedded: Go strings are modelled as lists of
characters (`GoStr`), Go slices as Lean lists, machine integers as `Nat`
with explicit bounds where overflow or conversion matters, and calls to
external collaborators (the docker client and the ssh client) as oracle
parameters supplying their results.  A Go runtime panic (out-of-range
slice index, nil-pointer dereference) is modelled by an `Option`-valued
result: `none` means the Go code aborts.
-/

/-- Go strings, modelled as their character sequence. -/
abbrev GoStr := List Char

/-- Embeds a Lean string literal as a `GoStr`. -/
def gostr (s : String) : GoStr := s.data

/-! ### Decimal formatting and parsing (`fmt.Sprintf("%d", _)`, `strconv.ParseUint`) -/

/-- The decimal digit character for `n < 10` (as produced by `%d`). -/
def digitChar : Nat → Char
  | 0 => '0' | 1 => '1' | 2 => '2' | 3 => '3' | 4 => '4'
  | 5 => '5' | 6 => '6' | 7 => '7' | 8 => '8' | _ => '9'

/-- Fuelled helper for decimal rendering of a natural number. -/
def natCharsAux : Nat → Nat → List Char
  | 0, _ => []
  | fuel + 1, n =>
    if n < 10 then [digitChar n]
    else natCharsAux fuel (n / 10) ++ [digitChar (n % 10)]

/-- Decimal rendering of a natural number, as Go's `fmt.Sprintf("%d", n)`. -/
def natChars (n : Nat) : GoStr := natCharsAux (n + 1) n

/-- Whether a character is an ASCII decimal digit (the only characters
`strconv.ParseUint(s, 10, 64)` accepts). -/
def isDigitChar (c : Char) : Bool := 48 ≤ c.toNat && c.toNat ≤ 57

/-- Numeric value of a digit string (most significant first). -/
def charsVal (l : GoStr) : Nat := l.foldl (fun a c => a * 10 + (c.toNat - 48)) 0

/-- Go's `strconv.ParseUint(s, 10, 64)`: succeeds exactly on a non-empty
all-digit string whose value fits in 64 bits. -/
def parseUint (l : GoStr) : Option Nat :=
  if l.isEmpty then none
  else if l.all isDigitChar then
    if charsVal l < 2 ^ 64 then some (charsVal l) else none
  else none

/-! ### Comma splitting and joining (`strings.Split(s, ",")`, `strings.Join(_, ",")`) -/

/-- Go's `strings.Split(s, ",")`; always returns at least one token. -/
def splitOnComma : GoStr → List GoStr
  | [] => [[]]
  | c :: rest =>
    match splitOnComma rest with
    | [] => if c = ',' then [[], []] else [[c]]
    | t :: ts => if c = ',' then [] :: t :: ts else (c :: t) :: ts

/-- Go's `strings.Join(tokens, ",")`. -/
def joinComma : List GoStr → GoStr
  | [] => []
  | [t] => t
  | t :: u :: ts => t ++ ',' :: joinComma (u :: ts)

/-! ### The CPU-set pool (`dockerProvider.cpuSets`) -/

/-- The collection loop of `checkoutCPUSets`: scan the pool in ascending
index order, appending each free index, and break as soon as the
accumulator reaches `runCPUs` entries (the length test runs at the end of
every iteration, exactly as in the Go loop). -/
def collectFree (runCPUs : Nat) : List Bool → Nat → List Nat → List Nat
  | [], _, acc => acc
  | b :: rest, i, acc =>
    let acc' := if b then acc else acc ++ [i]
    if acc'.length = runCPUs then acc' else collectFree runCPUs rest (i + 1) acc'

/-- `sel.foldl (fun p j => p.set j val) pool`: the sequential flag updates
performed by the Go loops over a list of indices. -/
def setAll (val : Bool) (pool : List Bool) (sel : List Nat) : List Bool :=
  sel.foldl (fun p j => p.set j val) pool

/-- `dockerProvider.checkoutCPUSets`, as a pure state transformer: returns
the result (assignment string or error) together with the pool after the
call.  On failure the pool is returned unchanged, as in the source, where
flags are only mutated after the length check passes. -/
def checkoutCPUSets (runCPUs : Nat) (pool : List Bool) :
    Except String GoStr × List Bool :=
  let sel := collectFree runCPUs pool 0 []
  if sel.length = runCPUs then
    (Except.ok (joinComma (sel.map natChars)), setAll true pool sel)
  else
    (Except.error ("not enough free CPUsets"), pool)

/-- The token loop of `checkinCPUSets`.  A token that fails to parse is
skipped; a parsed index is written through `p.cpuSets[int(cpu)] = false`,
which in Go panics when the index is outside the slice — modelled by the
`none` result. -/
def checkinGo : List Bool → List GoStr → Option (List Bool)
  | pool, [] => some pool
  | pool, tok :: rest =>
    match parseUint tok with
    | none => checkinGo pool rest
    | some v => if v < pool.length then checkinGo (pool.set v false) rest else none

/-- `dockerProvider.checkinCPUSets`: split the assignment string on commas
and clear each parsed index; `none` models the out-of-range panic. -/
def checkinCPUSets (pool : List Bool) (sets : GoStr) : Option (List Bool) :=
  checkinGo pool (splitOnComma sets)

/-- The ascending list of indices whose flag is `false`, the head of the
pool being index `i`.  Used to state what `checkoutCPUSets` selects. -/
def freeIndices : List Bool → Nat → List Nat
  | [], _ => []
  | b :: rest, i =>
    if b then freeIndices rest (i + 1) else i :: freeIndices rest (i + 1)

/-- Number of free (not checked out) indices in the pool. -/
def countFree (pool : List Bool) : Nat := (freeIndices pool 0).length

/-- Pointwise description of setting every index in `sel` to `val`: entry
`k + position` is overwritten exactly when it is named by `sel`. -/
def markSpec (val : Bool) (sel : List Nat) : List Bool → Nat → List Bool
  | [], _ => []
  | b :: rest, i => (if i ∈ sel then val else b) :: markSpec val sel rest (i + 1)

/-! ### `dockerInstance.Stop` -/

/-- `dockerInstance.Stop`: the deferred `checkinCPUSets` on the container
configuration's CPU-set string always runs; the stop error, if any, is
returned (the deferred release having executed), otherwise the
force-remove error.  `stopErr` and `removeErr` are the oracle results of
`StopContainer` and `RemoveContainer`. -/
def dockerInstance.Stop (pool : List Bool) (configCPUSet : GoStr)
    (stopErr removeErr : Option String) : Option String × Option (List Bool) :=
  let pool' := checkinCPUSets pool configCPUSet
  match stopErr with
  | some e => (some e, pool')
  | none => (removeErr, pool')

/-! ### Tag-based image selection (`dockerTagImageSelector`, `findDockerImageByTag`) -/

/-- One entry of the docker image catalog (`docker.APIImages`): an image
identifier together with its repository-tag strings. -/
structure APIImage where
  id : GoStr
  repoTags : List GoStr

/-- The inner loop of `findDockerImageByTag` for one search tag: walk the
catalog, matching the tag first against the image identifier, then
against each repository tag, returning `(image.ID, searchTag)` at the
first hit. -/
def findImageInner (t : GoStr) : List APIImage → Option (GoStr × GoStr)
  | [] => none
  | img :: rest =>
    if img.id = t then some (img.id, t)
    else if t ∈ img.repoTags then some (img.id, t)
    else findImageInner t rest

/-- `findDockerImageByTag`: try each search tag in order; the first tag
matched by some catalog entry wins; no match is a hard failure. -/
def findDockerImageByTag (searchTags : List GoStr) (images : List APIImage) :
    Except String (GoStr × GoStr) :=
  match searchTags with
  | [] => Except.error ("failed to find matching docker image tag")
  | t :: ts =>
    match findImageInner t images with
    | some r => Except.ok r
    | none => findDockerImageByTag ts images

/-- Whether some catalog entry matches the search tag, either by image
identifier or by one of its repository tags (the condition scanned by the
inner loop above). -/
def tagMatches (images : List APIImage) (t : GoStr) : Bool :=
  images.any (fun img => img.id == t || img.repoTags.contains t)

/-- The ordered candidate list searched by the tag selector for a
language: namespaced language tag, bare language, namespaced default,
bare default. -/
def searchTagCandidates (language : GoStr) : List GoStr :=
  [gostr ("travis:") ++ language, language, gostr ("travis:default"), gostr ("default")]

/-- `dockerTagImageSelector.Select`: list the catalog (the oracle result
`listResult`), then search the candidate tags; on success the matched tag
is returned as the image name.  A listing failure is wrapped. -/
def dockerTagImageSelector.Select (language : GoStr)
    (listResult : Except String (List APIImage)) : Except String GoStr :=
  match listResult with
  | Except.error e => Except.error ("failed to list docker images: " ++ e)
  | Except.ok images =>
    match findDockerImageByTag (searchTagCandidates language) images with
    | Except.ok r => Except.ok r.2
    | Except.error e => Except.error e

/-- Reference form of the tag search, written from the specification: the
first candidate tag matched by any catalog entry (by identifier or by any
repository tag) wins; no match is the hard failure. -/
def selectSpec (language : GoStr) (images : List APIImage) : Except String GoStr :=
  match (searchTagCandidates language).find? (tagMatches images) with
  | some t => Except.ok t
  | none => Except.error ("failed to find matching docker image tag")

/-! ### `dockerProvider.Start` -/

/-- Go `strings.TrimSpace`, restricted to ASCII whitespace (sufficient
for the image-selection strings this code handles). -/
def isSpaceChar (c : Char) : Bool := c = ' ' || c = '\t' || c = '\n' || c = '\r'

/-- Go `strings.TrimSpace` on the model strings. -/
def trimSpace (s : GoStr) : GoStr :=
  ((s.dropWhile isSpaceChar).reverse.dropWhile isSpaceChar).reverse

/-- Split at the first semicolon, as `strings.SplitN(s, ";", 2)` does:
returns the part before it and, when a semicolon exists, the rest. -/
def splitFirstSemi : GoStr → GoStr × Option GoStr
  | [] => ([], none)
  | c :: rest =>
    if c = ';' then ([], some rest)
    else
      let r := splitFirstSemi rest
      (c :: r.1, r.2)

/-- `dockerImageIDNameFromSelection`: trim the selection and split it at
the first semicolon into `(imageID, imageName)`; without a semicolon both
components are the whole string. -/
def dockerImageIDNameFromSelection (selection : GoStr) : GoStr × GoStr :=
  match splitFirstSemi (trimSpace selection) with
  | (a, some b) => (a, b)
  | (a, none) => (a, a)

/-- `dockerProvider.dockerImageIDFromName`: resolve a name to an image
identifier by scanning the local catalog for an equal tag; every failure
(listing or matching) falls back to the name itself. -/
def dockerImageIDFromName (imageName : GoStr)
    (listResult : Except String (List APIImage)) : GoStr :=
  match listResult with
  | Except.error _ => imageName
  | Except.ok images =>
    match findDockerImageByTag [imageName] images with
    | Except.error _ => imageName
    | Except.ok r => r.1

/-- Outcome of the readiness race at the end of `Start`: the container
reported running first, an inspection error arrived first, or the
caller's context was cancelled first. -/
inductive PollOutcome where
  | ready
  | inspectErr (e : String)
  | ctxDone (e : String)

/-- Oracle results of the external calls made during one `Start`:
the start attributes, the image selector, the local image listing, the
container runtime calls, and the readiness race. -/
structure StartEnv where
  imageNameAttr : GoStr
  language : GoStr
  selectResult : Except String GoStr
  listImagesResult : Except String (List APIImage)
  /-- container handle returned by `CreateContainer` (`none` models a nil pointer) -/
  createResult : Option GoStr
  createErr : Option String
  /-- result of the best-effort `RemoveContainer` after a create failure; logged, never propagated -/
  removeErr : Option String
  startErr : Option String
  pollResult : PollOutcome

/-- The fields of a `dockerInstance` that its later operations read:
the container identifier, the CPU-set string recorded in the applied
configuration, and the resolved image name. -/
structure DockerInstanceModel where
  containerID : GoStr
  configCPUSet : GoStr
  imageName : GoStr

/-- Container-runtime calls issued by `Start` (metrics and logging
omitted). -/
inductive GoEffect where
  | createContainer
  | removeContainer (id : GoStr)
  | startContainer (id : GoStr)

/-- The outcome of one `Start` call: its returned value (`none` models a
runtime panic), the pool it leaves behind, and the runtime calls made. -/
structure StartOutcome where
  result : Option (Except String DockerInstanceModel)
  pool : List Bool
  effects : List GoEffect

/-- The image-resolution prefix of `Start`: an explicit image name is
used verbatim; otherwise the selector result, split at a semicolon when
one is present; a still-empty identifier is refined through the local
catalog (never failing).  Returns `(imageID, imageName)`. -/
def resolveImageForStart (env : StartEnv) : Except String (GoStr × GoStr) :=
  let idName : Except String (GoStr × GoStr) :=
    if env.imageNameAttr ≠ [] then Except.ok ([], env.imageNameAttr)
    else
      match env.selectResult with
      | Except.error e => Except.error e
      | Except.ok sel =>
        if ';' ∈ sel then Except.ok (dockerImageIDNameFromSelection sel)
        else Except.ok ([], sel)
  match idName with
  | Except.error e => Except.error e
  | Except.ok (id, name) =>
    if id = [] then Except.ok (dockerImageIDFromName name env.listImagesResult, name)
    else Except.ok (id, name)

/-- The remainder of `Start` after a successful CPU-set checkout: create
the container (assigning the intended configuration to the returned
handle — a nil-pointer dereference, hence a panic, when the handle is
nil), clean up and surface a creation error, start the container, then
race readiness against inspection errors and cancellation. -/
def startWithCPUSets (env : StartEnv) (imageName cpuSets : GoStr)
    (pool : List Bool) : StartOutcome :=
  match env.createResult with
  | none => ⟨none, pool, [GoEffect.createContainer]⟩
  | some cid =>
    match env.createErr with
    | some e =>
      ⟨some (Except.error e), pool,
        [GoEffect.createContainer, GoEffect.removeContainer cid]⟩
    | none =>
      match env.startErr with
      | some e =>
        ⟨some (Except.error e), pool,
          [GoEffect.createContainer, GoEffect.startContainer cid]⟩
      | none =>
        match env.pollResult with
        | PollOutcome.ready =>
          ⟨some (Except.ok ⟨cid, cpuSets, imageName⟩), pool,
            [GoEffect.createContainer, GoEffect.startContainer cid]⟩
        | PollOutcome.inspectErr e =>
          ⟨some (Except.error e), pool,
            [GoEffect.createContainer, GoEffect.startContainer cid]⟩
        | PollOutcome.ctxDone e =>
          ⟨some (Except.error e), pool,
            [GoEffect.createContainer, GoEffect.startContainer cid]⟩

/-- `dockerProvider.Start`: resolve the image, check out a CPU set sized
to the configured CPU count (aborting the start on exhaustion with no
container created), then run the container-provisioning steps.  The
container configuration's CPU-set string ends up equal to the checked-out
assignment (when the assignment is empty the field keeps its empty zero
value). -/
def dockerProvider.Start (runCPUs : Nat) (pool : List Bool) (env : StartEnv) :
    StartOutcome :=
  match resolveImageForStart env with
  | Except.error e => ⟨some (Except.error e), pool, []⟩
  | Except.ok idName =>
    match checkoutCPUSets runCPUs pool with
    | (Except.error e, pool') => ⟨some (Except.error e), pool', []⟩
    | (Except.ok cpuSets, pool') => startWithCPUSets env idName.2 cpuSets pool'

/-! ### Script execution over ssh (`dockerInstance.runScriptSSH`) -/

/-- The result every script run reports: whether the remote process
completed, and its exit status (`RunResult` in the backend package). -/
structure RunResult where
  completed : Bool
  exitCode : Nat

/-- `dockerInstance.runScriptSSH`: on a connection failure, a
not-completed result with the wrapped error; otherwise the pair returned
by `conn.RunCommand` (the oracle `runResult`) is repackaged — note the
source computes `Completed: err != nil`.  `errors.Wrap` of a nil error is
nil, modelled by `Option.map`. -/
def dockerInstance.runScriptSSH (connErr : Option String)
    (runResult : Nat × Option String) : RunResult × Option String :=
  match connErr with
  | some e => (⟨false, 0⟩, some ("couldn't connect to SSH server: " ++ e))
  | none =>
    (⟨(runResult.2).isSome, runResult.1⟩,
      (runResult.2).map (fun e => "error running script: " ++ e))

/-! ### Script upload over scp (`dockerInstance.uploadScriptSCP`) -/

/-- Errors `uploadScriptSCP` can return: a connection failure, the
`ErrStaleVM` sentinel, or a wrapped upload failure. -/
inductive UploadSCPError where
  | sshErr (e : String)
  | staleVM
  | wrapped (e : String)

/-- A remote file system: file name to contents (bytes as naturals). -/
abbrev RemoteFS := GoStr → Option (List Nat)

/-- Modelled from the spec: `ssh.Connection.UploadFile` (the worker's ssh
package, whose source is not under `src/`) reports whether the target
file already existed, in which case the existing file is not overwritten;
a fresh upload writes the file unless the upload itself fails.
`uploadErr` is the oracle transport error. -/
def Connection.UploadFile (fs : RemoteFS) (name : GoStr) (content : List Nat)
    (uploadErr : Option String) : (Bool × Option String) × RemoteFS :=
  if (fs name).isSome then ((true, uploadErr), fs)
  else
    ((false, uploadErr),
      if uploadErr.isSome then fs
      else fun n => if n = name then some content else fs n)

/-- `dockerInstance.uploadScriptSCP`: connect, upload `build.sh`; a
pre-existing file yields `ErrStaleVM`, any other upload failure is
wrapped. -/
def dockerInstance.uploadScriptSCP (connErr : Option String) (fs : RemoteFS)
    (uploadErr : Option String) (script : List Nat) :
    Option UploadSCPError × RemoteFS :=
  match connErr with
  | some e => (some (UploadSCPError.sshErr e), fs)
  | none =>
    let r := Connection.UploadFile fs (gostr ("build.sh")) script uploadErr
    if r.1.1 then (some UploadSCPError.staleVM, r.2)
    else
      match r.1.2 with
      | some e => (some (UploadSCPError.wrapped ("couldn't upload build script: " ++ e)), r.2)
      | none => (none, r.2)

/-! ### Instance identity (`dockerInstance.ID`) -/

/-- `dockerInstance.ID`: the fixed sentinel when the container handle is
absent, otherwise the first seven characters of the container identifier,
a colon, and the image name.  Go slices `ID[0:7]`, which panics when the
identifier is shorter than seven bytes — modelled by `none`. -/
def dockerInstance.ID (container : Option GoStr) (imageName : GoStr) :
    Option GoStr :=
  match container with
  | none => some (gostr ("\x7bunidentified\x7d"))
  | some cid =>
    if 7 ≤ cid.length then some (cid.take 7 ++ ':' :: imageName) else none

/-! ### Concrete oracle environments and catalogs used in closed statements -/

/-- A start environment whose every external call succeeds: an explicit
image name, a created container `abc`, a clean start, and readiness. -/
def envStartOk : StartEnv :=
  ⟨gostr ("img"), gostr ("ruby"), Except.ok (gostr ("img")), Except.ok [],
    some (gostr ("abc")), none, none, none, PollOutcome.ready⟩

/-- The instance `envStartOk` produces from a one-slot free pool with one
configured CPU. -/
def instStartOk : DockerInstanceModel := ⟨gostr ("abc"), gostr ("0"), gostr ("img")⟩

/-- A start environment in which `CreateContainer` fails returning a nil
container handle, as the go-dockerclient does on an API error. -/
def envCreateNil : StartEnv :=
  ⟨[], gostr ("go"), Except.ok (gostr ("img")), Except.ok [],
    none, some ("create failed"), none, none, PollOutcome.ready⟩

/-- A start environment in which `CreateContainer` fails but hands back a
container handle, and the best-effort removal of that container itself
fails. -/
def envCreateFailed : StartEnv :=
  ⟨[], gostr ("go"), Except.ok (gostr ("img")), Except.ok [],
    some (gostr ("abc")), some ("boom"), some ("remove also failed"), none,
    PollOutcome.ready⟩

/-- A catalog holding both the language-specific tag and the namespaced
default, as in the specification's fallback-order test. -/
def demoCatalog : List APIImage :=
  [⟨gostr ("img2"), [gostr ("travis:default")]⟩,
    ⟨gostr ("img1"), [gostr ("travis:ruby")]⟩]

/-- A remote file system on which `build.sh` already exists. -/
def fsExisting : RemoteFS :=
  fun n => if n = gostr ("build.sh") then some [1] else none

/-- An empty remote file system. -/
def fsEmpty : RemoteFS := fun _ => none

/-! ## Pointwise lemmas about flag updates -/

theorem markSpec_length (val : Bool) (sel : List Nat) :
    ∀ (pool : List Bool) (k : Nat), (markSpec val sel pool k).length = pool.length := by
  intro pool
  induction pool with
  | nil => intro k; rfl
  | cons b rest ih => intro k; simp [markSpec, ih]

theorem markSpec_getElem? (val : Bool) (sel : List Nat) :
    ∀ (pool : List Bool) (k i : Nat),
      (markSpec val sel pool k)[i]? =
        pool[i]?.map (fun b => if k + i ∈ sel then val else b) := by
  intro pool
  induction pool with
  | nil => intro k i; rfl
  | cons b rest ih =>
    intro k i
    cases i with
    | zero => simp [markSpec]
    | succ j =>
      have h := ih (k + 1) j
      simpa [markSpec, Nat.add_assoc, Nat.add_comm 1 j] using h

theorem setAll_length (val : Bool) (sel : List Nat) :
    ∀ (pool : List Bool), (setAll val pool sel).length = pool.length := by
  induction sel with
  | nil => intro pool; rfl
  | cons j rest ih =>
    intro pool
    show (setAll val (pool.set j val) rest).length = pool.length
    rw [ih, List.length_set]

theorem setAll_getElem? (val : Bool) (sel : List Nat) :
    ∀ (pool : List Bool) (i : Nat),
      (setAll val pool sel)[i]? =
        if i ∈ sel ∧ i < pool.length then some val else pool[i]? := by
  induction sel with
  | nil => intro pool i; simp [setAll]
  | cons j rest ih =>
    intro pool i
    show (setAll val (pool.set j val) rest)[i]? = _
    rw [ih, List.length_set, List.getElem?_set]
    by_cases hlen : i < pool.length
    · by_cases hmem : i ∈ rest
      · simp [hmem, hlen, List.mem_cons]
      · by_cases hji : j = i
        · subst hji
          simp [hmem, hlen, List.mem_cons]
        · have hmc : i ∈ j :: rest ↔ i ∈ rest := by
            constructor
            · intro h
              rcases List.mem_cons.mp h with h | h
              · exact absurd h.symm hji
              · exact h
            · exact fun h => List.mem_cons_of_mem _ h
          simp [hmem, hlen, hji, hmc]
    · have hnone : pool[i]? = none := List.getElem?_eq_none (Nat.le_of_not_lt hlen)
      by_cases hji : j = i
      · subst hji
        simp [hlen, hnone]
      · simp [hlen, hji, hnone]

/-- Setting a list of indices sequentially is the same as the pointwise
overwrite of exactly the named positions. -/
theorem setAll_eq_markSpec (val : Bool) (sel : List Nat) (pool : List Bool) :
    setAll val pool sel = markSpec val sel pool 0 := by
  apply List.ext_getElem?
  intro i
  rw [setAll_getElem?, markSpec_getElem?]
  by_cases hmem : i ∈ sel
  · by_cases hlen : i < pool.length
    · have : pool[i]? = some pool[i] := List.getElem?_eq_getElem hlen
      simp [hmem, hlen, this]
    · have : pool[i]? = none := List.getElem?_eq_none (Nat.le_of_not_lt hlen)
      simp [hmem, hlen, this]
  · cases h : pool[i]? <;> simp [hmem, h]

/-! ## Lemmas about the checkout scan -/

theorem freeIndices_mem {pool : List Bool} :
    ∀ {i j : Nat}, j ∈ freeIndices pool i →
      ∃ k, j = i + k ∧ pool[k]? = some false := by
  induction pool with
  | nil => intro i j h; simp [freeIndices] at h
  | cons b rest ih =>
    intro i j h
    cases b with
    | true =>
      replace h : j ∈ freeIndices rest (i + 1) := h
      obtain ⟨k, hk, hget⟩ := ih h
      exact ⟨k + 1, by omega, by simpa using hget⟩
    | false =>
      replace h : j ∈ i :: freeIndices rest (i + 1) := h
      rcases List.mem_cons.mp h with h | h
      · exact ⟨0, by omega, by simp [h]⟩
      · obtain ⟨k, hk, hget⟩ := ih h
        exact ⟨k + 1, by omega, by simpa using hget⟩

theorem freeIndices_lower {pool : List Bool} :
    ∀ {i j : Nat}, j ∈ freeIndices pool i → i ≤ j := by
  intro i j h
  obtain ⟨k, hk, _⟩ := freeIndices_mem h
  omega

theorem freeIndices_pairwise (pool : List Bool) :
    ∀ (i : Nat), (freeIndices pool i).Pairwise (· < ·) := by
  induction pool with
  | nil => intro i; simp [freeIndices]
  | cons b rest ih =>
    intro i
    cases b with
    | true => exact ih (i + 1)
    | false =>
      show (i :: freeIndices rest (i + 1)).Pairwise (· < ·)
      exact List.Pairwise.cons
        (fun j hj => Nat.lt_of_lt_of_le (Nat.lt_succ_self i) (freeIndices_lower hj))
        (ih (i + 1))

/-- The collection loop, started below its target, extends the
accumulator with the next free indices until the target is reached. -/
theorem collectFree_eq_take (n : Nat) :
    ∀ (pool : List Bool) (i : Nat) (acc : List Nat), acc.length < n →
      collectFree n pool i acc = acc ++ (freeIndices pool i).take (n - acc.length) := by
  intro pool
  induction pool with
  | nil => intro i acc _; simp [collectFree, freeIndices]
  | cons b rest ih =>
    intro i acc hacc
    have hne : ¬ acc.length = n := Nat.ne_of_lt hacc
    cases b with
    | true =>
      show (if acc.length = n then acc else collectFree n rest (i + 1) acc) =
        acc ++ (freeIndices (true :: rest) i).take (n - acc.length)
      rw [if_neg hne, ih (i + 1) acc hacc]
      rfl
    | false =>
      show (if (acc ++ [i]).length = n then acc ++ [i]
          else collectFree n rest (i + 1) (acc ++ [i])) =
        acc ++ (freeIndices (false :: rest) i).take (n - acc.length)
      have hfree : freeIndices (false :: rest) i = i :: freeIndices rest (i + 1) := rfl
      rw [hfree]
      by_cases hfull : (acc ++ [i]).length = n
      · rw [if_pos hfull]
        have hn : n - acc.length = 1 := by
          simp only [List.length_append, List.length_cons, List.length_nil] at hfull
          omega
        rw [hn]
        simp
      · rw [if_neg hfull]
        have hl1 : ¬ acc.length + 1 = n := by simpa using hfull
        have hlt : (acc ++ [i]).length < n := by
          simp only [List.length_append, List.length_cons, List.length_nil]
          omega
        rw [ih (i + 1) (acc ++ [i]) hlt]
        have hn : n - acc.length = (n - (acc ++ [i]).length) + 1 := by
          simp only [List.length_append, List.length_cons, List.length_nil]
          omega
        rw [hn, List.take_succ_cons, List.append_assoc]
        rfl

/-- Every index the collection loop adds beyond its accumulator is a free
index of the pool. -/
theorem collectFree_mem (n : Nat) :
    ∀ (pool : List Bool) (i : Nat) (acc : List Nat) (j : Nat),
      j ∈ collectFree n pool i acc →
      j ∈ acc ∨ ∃ k, j = i + k ∧ pool[k]? = some false := by
  intro pool
  induction pool with
  | nil => intro i acc j h; exact Or.inl (by simpa [collectFree] using h)
  | cons b rest ih =>
    intro i acc j h
    cases b with
    | true =>
      replace h : j ∈ (if acc.length = n then acc else collectFree n rest (i + 1) acc) := h
      by_cases hfull : acc.length = n
      · rw [if_pos hfull] at h
        exact Or.inl h
      · rw [if_neg hfull] at h
        rcases ih (i + 1) acc j h with h | ⟨k, hk, hget⟩
        · exact Or.inl h
        · exact Or.inr ⟨k + 1, by omega, by simpa using hget⟩
    | false =>
      replace h : j ∈ (if (acc ++ [i]).length = n then acc ++ [i]
          else collectFree n rest (i + 1) (acc ++ [i])) := h
      have hdone : j ∈ acc ++ [i] →
          j ∈ acc ∨ ∃ k, j = i + k ∧ (false :: rest)[k]? = some false := by
        intro hj
        rcases List.mem_append.mp hj with hj | hj
        · exact Or.inl hj
        · have hji : j = i := by simpa using hj
          exact Or.inr ⟨0, by omega, by simp⟩
      by_cases hfull : (acc ++ [i]).length = n
      · rw [if_pos hfull] at h
        exact hdone h
      · rw [if_neg hfull] at h
        rcases ih (i + 1) (acc ++ [i]) j h with hj | ⟨k, hk, hget⟩
        · exact hdone hj
        · exact Or.inr ⟨k + 1, by omega, by simpa using hget⟩


/-! ## Decimal rendering round-trips through parsing -/

theorem digitChar_facts {n : Nat} (h : n < 10) :
    isDigitChar (digitChar n) = true ∧ (digitChar n).toNat - 48 = n ∧
      digitChar n ≠ ',' := by
  interval_cases n <;> exact ⟨by decide, by decide, by decide⟩

theorem charsVal_append_digit (xs : GoStr) (c : Char) :
    charsVal (xs ++ [c]) = charsVal xs * 10 + (c.toNat - 48) := by
  unfold charsVal
  rw [List.foldl_append]
  rfl

theorem natCharsAux_spec :
    ∀ (fuel n : Nat), n < fuel →
      natCharsAux fuel n ≠ [] ∧ (natCharsAux fuel n).all isDigitChar = true ∧
        charsVal (natCharsAux fuel n) = n ∧ ',' ∉ natCharsAux fuel n := by
  intro fuel
  induction fuel with
  | zero => intro n h; omega
  | succ fuel ih =>
    intro n h
    by_cases h10 : n < 10
    · obtain ⟨hd, hv, hc⟩ := digitChar_facts h10
      have he : natCharsAux (fuel + 1) n = [digitChar n] := by
        show (if n < 10 then [digitChar n]
          else natCharsAux fuel (n / 10) ++ [digitChar (n % 10)]) = [digitChar n]
        rw [if_pos h10]
      refine ⟨by simp [he], by simp [he, hd], ?_, ?_⟩
      · rw [he]
        show charsVal ([] ++ [digitChar n]) = n
        rw [charsVal_append_digit]
        simpa [charsVal] using hv
      · rw [he]
        intro hmem
        have hx : ',' = digitChar n := by simpa using hmem
        exact hc hx.symm
    · have hdiv : n / 10 < fuel := by
        have hlt : n / 10 < n := Nat.div_lt_self (by omega) (by omega)
        omega
      obtain ⟨hne, hall, hval, hcm⟩ := ih (n / 10) hdiv
      have hmod : n % 10 < 10 := by omega
      obtain ⟨hd, hv, hc⟩ := digitChar_facts hmod
      have he : natCharsAux (fuel + 1) n =
          natCharsAux fuel (n / 10) ++ [digitChar (n % 10)] := by
        show (if n < 10 then [digitChar n]
          else natCharsAux fuel (n / 10) ++ [digitChar (n % 10)]) =
            natCharsAux fuel (n / 10) ++ [digitChar (n % 10)]
        rw [if_neg h10]
      refine ⟨by simp [he], by simp [he, hall, hd], ?_, ?_⟩
      · rw [he, charsVal_append_digit, hval, hv]
        omega
      · rw [he]
        intro hmem
        rcases List.mem_append.mp hmem with hmem | hmem
        · exact hcm hmem
        · have hx : ',' = digitChar (n % 10) := by simpa using hmem
          exact hc hx.symm

theorem natChars_spec (n : Nat) :
    natChars n ≠ [] ∧ (natChars n).all isDigitChar = true ∧
      charsVal (natChars n) = n ∧ ',' ∉ natChars n :=
  natCharsAux_spec (n + 1) n (Nat.lt_succ_self n)

theorem parseUint_natChars {n : Nat} (h : n < 2 ^ 64) :
    parseUint (natChars n) = some n := by
  obtain ⟨hne, hall, hval, _⟩ := natChars_spec n
  unfold parseUint
  rw [if_neg (by simpa [List.isEmpty_iff] using hne), if_pos hall, hval, if_pos h]

/-! ## Comma splitting inverts comma joining -/

theorem splitOnComma_ne_nil : ∀ (s : GoStr), splitOnComma s ≠ [] := by
  intro s
  induction s with
  | nil => simp [splitOnComma]
  | cons c rest ih =>
    cases h : splitOnComma rest with
    | nil => exact absurd h ih
    | cons t ts => by_cases hc : c = ',' <;> simp [splitOnComma, h, hc]

theorem splitOnComma_no_comma : ∀ (t : GoStr), ',' ∉ t → splitOnComma t = [t] := by
  intro t
  induction t with
  | nil => intro _; rfl
  | cons c rest ih =>
    intro h
    have hc : c ≠ ',' := fun hx => h (by rw [hx]; exact List.mem_cons_self _ _)
    have hr : splitOnComma rest = [rest] := ih (fun hx => h (List.mem_cons_of_mem _ hx))
    simp [splitOnComma, hr, hc]

theorem splitOnComma_append : ∀ (t s : GoStr), ',' ∉ t →
    splitOnComma (t ++ ',' :: s) = t :: splitOnComma s := by
  intro t
  induction t with
  | nil =>
    intro s _
    show splitOnComma (',' :: s) = [] :: splitOnComma s
    cases h : splitOnComma s with
    | nil => exact absurd h (splitOnComma_ne_nil s)
    | cons u us => simp [splitOnComma, h]
  | cons c rest ih =>
    intro s h
    have hc : c ≠ ',' := fun hx => h (by rw [hx]; exact List.mem_cons_self _ _)
    have hr := ih s (fun hx => h (List.mem_cons_of_mem _ hx))
    show splitOnComma (c :: (rest ++ ',' :: s)) = (c :: rest) :: splitOnComma s
    simp [splitOnComma, hr, hc]

theorem splitOnComma_joinComma : ∀ (toks : List GoStr), toks ≠ [] →
    (∀ t ∈ toks, ',' ∉ t) → splitOnComma (joinComma toks) = toks := by
  intro toks
  induction toks with
  | nil => intro h _; exact absurd rfl h
  | cons t ts ih =>
    intro _ hall
    cases ts with
    | nil => exact splitOnComma_no_comma t (hall t (by simp))
    | cons u us =>
      show splitOnComma (t ++ ',' :: joinComma (u :: us)) = t :: u :: us
      rw [splitOnComma_append t _ (hall t (by simp))]
      rw [ih (by simp) (fun x hx => hall x (List.mem_cons_of_mem _ hx))]

theorem filterMap_parse_natChars : ∀ (sel : List Nat), (∀ j ∈ sel, j < 2 ^ 64) →
    (sel.map natChars).filterMap parseUint = sel := by
  intro sel
  induction sel with
  | nil => intro _; rfl
  | cons j rest ih =>
    intro h
    simp only [List.map_cons, List.filterMap_cons, parseUint_natChars (h j (by simp))]
    rw [ih (fun x hx => h x (List.mem_cons_of_mem _ hx))]

/-! ## Characterizing checkin and checkout -/

/-- When every parsed token names an index inside the pool, the checkin
loop does not abort and clears exactly the parsed indices. -/
theorem checkinGo_spec : ∀ (toks : List GoStr) (pool : List Bool),
    (∀ t ∈ toks, ∀ v, parseUint t = some v → v < pool.length) →
    checkinGo pool toks = some (setAll false pool (toks.filterMap parseUint)) := by
  intro toks
  induction toks with
  | nil => intro pool _; rfl
  | cons t rest ih =>
    intro pool h
    cases hp : parseUint t with
    | none =>
      show checkinGo pool (t :: rest) = _
      simp only [checkinGo, hp, List.filterMap_cons]
      exact ih pool (fun x hx => h x (List.mem_cons_of_mem _ hx))
    | some v =>
      have hv : v < pool.length := h t (List.mem_cons_self _ _) v hp
      simp only [checkinGo, hp, if_pos hv, List.filterMap_cons]
      have := ih (pool.set v false)
        (fun x hx w hw => by rw [List.length_set]; exact h x (List.mem_cons_of_mem _ hx) w hw)
      exact this

theorem checkoutCPUSets_success {n : Nat} (pool : List Bool)
    (h1 : 1 ≤ n) (h2 : n ≤ countFree pool) :
    checkoutCPUSets n pool =
      (Except.ok (joinComma (((freeIndices pool 0).take n).map natChars)),
        setAll true pool ((freeIndices pool 0).take n)) := by
  have hsel : collectFree n pool 0 [] = (freeIndices pool 0).take n := by
    have := collectFree_eq_take n pool 0 [] (by simpa using h1)
    simpa using this
  have hlen : ((freeIndices pool 0).take n).length = n := by
    rw [List.length_take]
    exact Nat.min_eq_left h2
  unfold checkoutCPUSets
  rw [hsel, if_pos hlen]

theorem checkoutCPUSets_exhausted {n : Nat} (pool : List Bool)
    (h : countFree pool < n) :
    checkoutCPUSets n pool = (Except.error ("not enough free CPUsets"), pool) := by
  have h1 : (0 : Nat) < n := by omega
  have hsel : collectFree n pool 0 [] = (freeIndices pool 0).take n := by
    have := collectFree_eq_take n pool 0 [] (by simpa using h1)
    simpa using this
  have hlen : ((freeIndices pool 0).take n).length = countFree pool := by
    rw [List.length_take]
    exact Nat.min_eq_right (Nat.le_of_lt h)
  unfold checkoutCPUSets
  rw [hsel, if_neg (by rw [hlen]; omega)]

/-- The central resource-safety fact: checking the assignment string a
successful checkout produced back into the post-checkout pool restores
the pool exactly.  The length bound is the Go guarantee that a slice
length fits a 64-bit signed integer. -/
theorem checkin_after_checkout {n : Nat} {pool pool₁ : List Bool} {s : GoStr}
    (hplen : pool.length ≤ 2 ^ 63)
    (h : checkoutCPUSets n pool = (Except.ok s, pool₁)) :
    checkinCPUSets pool₁ s = some pool := by
  unfold checkoutCPUSets at h
  by_cases hok : (collectFree n pool 0 []).length = n
  case neg =>
    rw [if_neg hok] at h
    exact absurd (congrArg Prod.fst h) (by simp)
  rw [if_pos hok] at h
  have hs : s = joinComma ((collectFree n pool 0 []).map natChars) :=
    (Except.ok.inj (congrArg Prod.fst h)).symm
  have hpool : pool₁ = setAll true pool (collectFree n pool 0 []) :=
    (congrArg Prod.snd h).symm
  have hmem : ∀ j ∈ collectFree n pool 0 [], pool[j]? = some false := by
    intro j hj
    rcases collectFree_mem n pool 0 [] j hj with h0 | ⟨k, hk, hget⟩
    · simp at h0
    · have : j = k := by omega
      rw [this]
      exact hget
  have hjlt : ∀ j ∈ collectFree n pool 0 [], j < pool.length := by
    intro j hj
    exact (List.getElem?_eq_some.mp (hmem j hj)).1
  have hrestore : setAll false (setAll true pool (collectFree n pool 0 []))
      (collectFree n pool 0 []) = pool := by
    apply List.ext_getElem?
    intro i
    rw [setAll_getElem?, setAll_getElem?, setAll_length]
    by_cases hm : i ∈ collectFree n pool 0 []
    · have hl : i < pool.length := hjlt i hm
      simp only [hm, hl, and_self, if_pos]
      exact (hmem i hm).symm
    · simp [hm]
  cases hselcase : collectFree n pool 0 [] with
  | nil =>
    rw [hselcase] at hs hpool
    subst hs
    rw [hpool]
    show checkinGo (setAll true pool []) (splitOnComma (joinComma [])) = some pool
    rfl
  | cons a l =>
    have hsplit : splitOnComma s = (collectFree n pool 0 []).map natChars := by
      rw [hs]
      apply splitOnComma_joinComma
      · rw [hselcase]; simp
      · intro t ht
        obtain ⟨j, _, hj⟩ := List.mem_map.mp ht
        rw [← hj]
        exact (natChars_spec j).2.2.2
    unfold checkinCPUSets
    rw [hsplit]
    rw [checkinGo_spec _ _ ?bound]
    case bound =>
      intro t ht v hv
      obtain ⟨j, hjmem, hj⟩ := List.mem_map.mp ht
      have hj64 : j < 2 ^ 64 := by
        have := hjlt j hjmem
        have : j < 2 ^ 63 := by omega
        omega
      rw [← hj, parseUint_natChars hj64] at hv
      have : v = j := (Option.some.inj hv).symm
      rw [hpool, setAll_length, this]
      exact hjlt j hjmem
    rw [filterMap_parse_natChars _ ?b64]
    case b64 =>
      intro j hjmem
      have := hjlt j hjmem
      omega
    rw [hpool, hrestore]

/-! ## The tag search is a first-match scan -/

theorem findImageInner_snd {t : GoStr} :
    ∀ {images : List APIImage} {r : GoStr × GoStr},
      findImageInner t images = some r → r.2 = t := by
  intro images
  induction images with
  | nil => intro r h; cases h
  | cons img rest ih =>
    intro r h
    replace h : (if img.id = t then some (img.id, t)
      else if t ∈ img.repoTags then some (img.id, t)
      else findImageInner t rest) = some r := h
    by_cases h1 : img.id = t
    · rw [if_pos h1] at h
      rw [← Option.some.inj h]
    · rw [if_neg h1] at h
      by_cases h2 : t ∈ img.repoTags
      · rw [if_pos h2] at h
        rw [← Option.some.inj h]
      · rw [if_neg h2] at h
        exact ih h

theorem findImageInner_isSome (t : GoStr) :
    ∀ (images : List APIImage),
      (findImageInner t images).isSome = tagMatches images t := by
  intro images
  induction images with
  | nil => rfl
  | cons img rest ih =>
    show (if img.id = t then some (img.id, t)
      else if t ∈ img.repoTags then some (img.id, t)
      else findImageInner t rest).isSome = tagMatches (img :: rest) t
    by_cases h1 : img.id = t
    · rw [if_pos h1]
      simp [tagMatches, h1]
    · rw [if_neg h1]
      by_cases h2 : t ∈ img.repoTags
      · rw [if_pos h2]
        simp [tagMatches, h2]
      · rw [if_neg h2, ih]
        simp [tagMatches, h1, h2]

theorem findDockerImageByTag_snd (images : List APIImage) :
    ∀ (tags : List GoStr),
      (match findDockerImageByTag tags images with
        | Except.ok r => Except.ok r.2
        | Except.error e => Except.error e) =
      (match tags.find? (tagMatches images) with
        | some t => Except.ok t
        | none => Except.error ("failed to find matching docker image tag")) := by
  intro tags
  induction tags with
  | nil => rfl
  | cons t ts ih =>
    cases hf : findImageInner t images with
    | some r =>
      have hm : tagMatches images t = true := by
        rw [← findImageInner_isSome t images, hf]
        rfl
      rw [List.find?_cons_of_pos _ hm]
      have he : findDockerImageByTag (t :: ts) images = Except.ok r := by
        show (match findImageInner t images with
          | some r => Except.ok r
          | none => findDockerImageByTag ts images) = Except.ok r
        rw [hf]
      rw [he]
      show (Except.ok r.2 : Except String GoStr) = Except.ok t
      rw [findImageInner_snd hf]
    | none =>
      have hm : tagMatches images t = false := by
        rw [← findImageInner_isSome t images, hf]
        rfl
      rw [List.find?_cons_of_neg _ (by simp [hm])]
      have he : findDockerImageByTag (t :: ts) images = findDockerImageByTag ts images := by
        show (match findImageInner t images with
          | some r => Except.ok r
          | none => findDockerImageByTag ts images) = _
        rw [hf]
      rw [he]
      exact ih

/-! ## Inversion facts about `Start` -/

theorem startWithCPUSets_pool (env : StartEnv) (nm s : GoStr) (pool : List Bool) :
    (startWithCPUSets env nm s pool).pool = pool := by
  unfold startWithCPUSets
  cases env.createResult with
  | none => rfl
  | some cid =>
    cases env.createErr with
    | some e => rfl
    | none =>
      cases env.startErr with
      | some e => rfl
      | none => cases env.pollResult <;> rfl

theorem startWithCPUSets_ok {env : StartEnv} {nm s : GoStr} {pool : List Bool}
    {inst : DockerInstanceModel}
    (h : (startWithCPUSets env nm s pool).result = some (Except.ok inst)) :
    inst.configCPUSet = s := by
  unfold startWithCPUSets at h
  cases hcr : env.createResult with
  | none => rw [hcr] at h; simp at h
  | some cid =>
    rw [hcr] at h
    cases hce : env.createErr with
    | some e => rw [hce] at h; simp at h
    | none =>
      rw [hce] at h
      cases hse : env.startErr with
      | some e => rw [hse] at h; simp at h
      | none =>
        rw [hse] at h
        cases hpr : env.pollResult with
        | ready =>
          rw [hpr] at h
          replace h : some (Except.ok (⟨cid, s, nm⟩ : DockerInstanceModel)) =
            some (Except.ok inst) := h
          rw [← Except.ok.inj (Option.some.inj h)]
        | inspectErr e => rw [hpr] at h; simp at h
        | ctxDone e => rw [hpr] at h; simp at h

/-! ## Claim theorems -/

/-- Claim C2, counterexample to the claim as stated: on an exhausted pool
the code fails with the message "not enough free CPUsets", not the
claim's quoted "not enough free CPU sets". -/
theorem checkout_exhausted_message_cex :
    (checkoutCPUSets 1 [true]).1 = Except.error ("not enough free CPUsets") ∧
    "not enough free CPUsets" ≠ "not enough free CPU sets" :=
  ⟨rfl, by decide⟩

/-- Claim C2 (amended): for every pool state and every requested size n,
if fewer than n indices are currently free then checkout fails with the
error "not enough free CPUsets" and leaves every pool flag exactly as it
was before the call — no flags are mutated on the failure path. -/
theorem checkout_exhausted (n : Nat) (pool : List Bool)
    (h : countFree pool < n) :
    checkoutCPUSets n pool = (Except.error ("not enough free CPUsets"), pool) :=
  checkoutCPUSets_exhausted pool h

/-- Claim C2, witness: a pool with one free slot rejects a request for
two and is left unchanged. -/
theorem checkout_exhausted_witness :
    countFree [true, false] < 2 ∧
    checkoutCPUSets 2 [true, false] =
      (Except.error ("not enough free CPUsets"), [true, false]) :=
  ⟨by decide, checkout_exhausted 2 [true, false] (by decide)⟩

/-- Claim C3, counterexample to the claim as stated: checkin is not total
on arbitrary strings — the well-formed token "5" names an index outside a
two-slot pool, and the Go code panics on the out-of-range slice write
(`p.cpuSets[int(cpu)] = false`), modelled by the `none` result. -/
theorem checkin_abort_cex :
    checkinCPUSets [false, false] (gostr ("5")) = none ∧
    parseUint (gostr ("5")) = some 5 :=
  ⟨rfl, rfl⟩

/-- Claim C3 (amended): for every input string whose parseable tokens all
name indices inside the pool, checkin does not panic or abort: malformed
tokens (including an empty string's empty token) are skipped silently,
indices already free are tolerated, and exactly the named indices are set
to false, every other flag left unchanged. -/
theorem checkin_tolerates_garbage (pool : List Bool) (s : GoStr)
    (hbound : ((splitOnComma s).all
      (fun t => (parseUint t).all (fun v => decide (v < pool.length)))) = true) :
    checkinCPUSets pool s =
      some (markSpec false ((splitOnComma s).filterMap parseUint) pool 0) := by
  unfold checkinCPUSets
  rw [checkinGo_spec _ _ ?bnd, setAll_eq_markSpec]
  case bnd =>
    intro t ht v hv
    have hx := List.all_eq_true.mp hbound t ht
    rw [hv] at hx
    simpa using hx

/-- Claim C3, witness: a garbage list with an unparsable token, a
duplicate index and an already-free index is tolerated and clears exactly
the named indices; the empty string is a no-op. -/
theorem checkin_tolerates_garbage_witness :
    ((splitOnComma (gostr ("1,x,0,1"))).all
      (fun t => (parseUint t).all
        (fun v => decide (v < ([false, true, true] : List Bool).length)))) = true ∧
    checkinCPUSets [false, true, true] (gostr ("1,x,0,1")) =
      some (markSpec false ((splitOnComma (gostr ("1,x,0,1"))).filterMap parseUint)
        [false, true, true] 0) ∧
    checkinCPUSets [false, true, true] (gostr ("1,x,0,1")) =
      some [false, false, true] ∧
    checkinCPUSets [false, true, true] (gostr ("")) = some [false, true, true] :=
  ⟨by decide,
    checkin_tolerates_garbage [false, true, true] (gostr ("1,x,0,1")) (by decide),
    by rfl, by rfl⟩

/-- Claim C7, counterexample to the claim as stated: with a requested
size of zero (the configuration "CPUS = 0 disables allocation") and a
pool whose first slot is free, the pool trivially has at least zero free
indices, yet checkout fails instead of returning the empty selection: the
scan loop only breaks after appending, so it collects every free index
and then fails the length test. -/
theorem checkout_zero_cex :
    0 ≤ countFree [false, false] ∧
    checkoutCPUSets 0 [false, false] =
      (Except.error ("not enough free CPUsets"), [false, false]) ∧
    (checkoutCPUSets 0 [false, false]).1 ≠ Except.ok (joinComma []) := by
  refine ⟨by decide, rfl, ?_⟩
  intro hx
  rw [show (checkoutCPUSets 0 [false, false]).1 =
    Except.error ("not enough free CPUsets") from rfl] at hx
  exact Except.noConfusion hx

/-- Claim C7 (amended): for every requested size n ≥ 1 and every pool
with at least n free indices, checkout selects exactly the n
lowest-numbered free indices (first-fit ascending), sets exactly those
flags to true leaving every other flag unchanged, and returns those
indices comma-joined in ascending order. -/
theorem checkout_first_fit (n : Nat) (pool : List Bool) (h1 : 1 ≤ n)
    (h2 : n ≤ countFree pool) :
    checkoutCPUSets n pool =
      (Except.ok (joinComma (((freeIndices pool 0).take n).map natChars)),
        markSpec true ((freeIndices pool 0).take n) pool 0) ∧
    ((freeIndices pool 0).take n).length = n ∧
    ((freeIndices pool 0).take n).Pairwise (· < ·) := by
  refine ⟨?_, ?_, ?_⟩
  · rw [checkoutCPUSets_success pool h1 h2, setAll_eq_markSpec]
  · rw [List.length_take]
    exact Nat.min_eq_left h2
  · exact (freeIndices_pairwise pool 0).sublist (List.take_sublist ..)

/-- Claim C7, witness: requesting two slots from a pool whose free
indices are 1 and 2 marks exactly those and returns "1,2". -/
theorem checkout_first_fit_witness :
    1 ≤ 2 ∧ 2 ≤ countFree [true, false, false] ∧
    (checkoutCPUSets 2 [true, false, false] =
      (Except.ok (joinComma (((freeIndices [true, false, false] 0).take 2).map natChars)),
        markSpec true ((freeIndices [true, false, false] 0).take 2) [true, false, false] 0) ∧
    ((freeIndices [true, false, false] 0).take 2).length = 2 ∧
    ((freeIndices [true, false, false] 0).take 2).Pairwise (· < ·)) ∧
    checkoutCPUSets 2 [true, false, false] =
      (Except.ok (gostr ("1,2")), [true, true, true]) :=
  ⟨by decide, by decide, checkout_first_fit 2 [true, false, false] (by decide) (by decide),
    by rfl⟩

/-- Claim C10: a successful checkout followed by a checkin of the
returned assignment string restores the pool's flag array exactly to its
pre-checkout value.  The length bound is the Go guarantee that a slice
length fits a 64-bit signed integer. -/
theorem checkout_checkin_roundtrip (n : Nat) (pool pool₁ : List Bool) (s : GoStr)
    (hplen : pool.length ≤ 2 ^ 63) (_hn : 1 ≤ n)
    (h : checkoutCPUSets n pool = (Except.ok s, pool₁)) :
    checkinCPUSets pool₁ s = some pool :=
  checkin_after_checkout hplen h

/-- Claim C10, witness: checking out two slots of a three-slot pool and
checking the returned string back in restores the original pool. -/
theorem checkout_checkin_roundtrip_witness :
    ([false, true, false] : List Bool).length ≤ 2 ^ 63 ∧ 1 ≤ 2 ∧
    checkoutCPUSets 2 [false, true, false] =
      (Except.ok (gostr ("0,2")), [true, true, true]) ∧
    checkinCPUSets [true, true, true] (gostr ("0,2")) = some [false, true, false] :=
  ⟨by decide, by decide, by rfl,
    checkout_checkin_roundtrip 2 [false, true, false] [true, true, true]
      (gostr ("0,2")) (by decide) (by decide) (by rfl)⟩

/-- Claim C1: for every Instance `Start` returns (its applied
configuration recording the checked-out CPU-set assignment), every `Stop`
releases exactly that assignment back to the pool — the post-`Stop` pool
is the pre-checkout pool, so the assignment's flags are false again —
and the release happens whether or not the graceful stop or the
force-remove fails; when the stop call fails its error is returned and
the release still occurs.  The length bound is the Go guarantee that a
slice length fits a 64-bit signed integer. -/
theorem stop_releases_cpusets (runCPUs : Nat) (pool : List Bool) (env : StartEnv)
    (inst : DockerInstanceModel) (stopErr removeErr : Option String)
    (hplen : pool.length ≤ 2 ^ 63)
    (hstart : (dockerProvider.Start runCPUs pool env).result = some (Except.ok inst)) :
    dockerInstance.Stop (dockerProvider.Start runCPUs pool env).pool
        inst.configCPUSet stopErr removeErr =
      ((if stopErr.isSome then stopErr else removeErr), some pool) := by
  cases hres : resolveImageForStart env with
  | error e =>
    rw [show dockerProvider.Start runCPUs pool env =
      ⟨some (Except.error e), pool, []⟩ from by
        unfold dockerProvider.Start; rw [hres]] at hstart
    simp at hstart
  | ok idName =>
    cases hco : checkoutCPUSets runCPUs pool with
    | mk r pool₁ =>
      cases r with
      | error e =>
        rw [show dockerProvider.Start runCPUs pool env =
          ⟨some (Except.error e), pool₁, []⟩ from by
            unfold dockerProvider.Start; rw [hres, hco]] at hstart
        simp at hstart
      | ok cpuSets =>
        have hS : dockerProvider.Start runCPUs pool env =
            startWithCPUSets env idName.2 cpuSets pool₁ := by
          unfold dockerProvider.Start
          rw [hres, hco]
        rw [hS] at hstart ⊢
        have hcfg : inst.configCPUSet = cpuSets := startWithCPUSets_ok hstart
        rw [startWithCPUSets_pool, hcfg]
        have hci : checkinCPUSets pool₁ cpuSets = some pool :=
          checkin_after_checkout hplen hco
        unfold dockerInstance.Stop
        cases stopErr with
        | some e => simp [hci]
        | none => simp [hci]

/-- Claim C1, witness: a fully successful start from a one-slot pool,
followed by a stop whose graceful-stop call fails, returns that error and
still frees the slot. -/
theorem stop_releases_cpusets_witness :
    ([false] : List Bool).length ≤ 2 ^ 63 ∧
    (dockerProvider.Start 1 [false] envStartOk).result =
      some (Except.ok instStartOk) ∧
    dockerInstance.Stop (dockerProvider.Start 1 [false] envStartOk).pool
        instStartOk.configCPUSet (some ("stop failed")) none =
      (some ("stop failed"), some [false]) :=
  ⟨by decide, by rfl,
    stop_releases_cpusets 1 [false] envStartOk instStartOk
      (some ("stop failed")) none (by decide) (by rfl)⟩

/-- Claim C4: the secure-shell execute variant reports the opposite of
the claimed completion flag — the source computes `Completed: err != nil`
— so a run whose `RunCommand` returns exit status 0 with no error is
reported not completed, while a run whose `RunCommand` fails is reported
completed.  This closed theorem evaluates the code at both inputs. -/
theorem runScriptSSH_completed_inverted :
    dockerInstance.runScriptSSH none (0, none) = (⟨false, 0⟩, none) ∧
    (dockerInstance.runScriptSSH none (7, some ("connection reset"))).1.completed = true ∧
    (dockerInstance.runScriptSSH none (0, none)).1.completed = false :=
  ⟨rfl, rfl, rfl⟩

/-- Claim C5, counterexample to the claim as stated: when no candidate
matches, the code fails with "failed to find matching docker image tag",
not the claim's quoted "failed to find matching image tag". -/
theorem select_message_cex :
    dockerTagImageSelector.Select (gostr ("ruby")) (Except.ok []) =
      Except.error ("failed to find matching docker image tag") ∧
    "failed to find matching docker image tag" ≠ "failed to find matching image tag" :=
  ⟨rfl, by decide⟩

/-- Claim C5 (amended): the tag selector searches the candidates
"travis:L", "L", "travis:default", "default" in exactly that order,
matching each against every image identifier and every repository tag;
the first matching candidate is returned as the image name, and no match
fails with "failed to find matching docker image tag".  In a catalog
holding both "travis:default" and "travis:ruby", language "ruby" resolves
to "travis:ruby" and an unlisted language to "travis:default". -/
theorem select_first_match :
    (∀ (language : GoStr) (images : List APIImage),
      dockerTagImageSelector.Select language (Except.ok images) =
        selectSpec language images) ∧
    dockerTagImageSelector.Select (gostr ("ruby")) (Except.ok demoCatalog) =
      Except.ok (gostr ("travis:ruby")) ∧
    dockerTagImageSelector.Select (gostr ("haskell")) (Except.ok demoCatalog) =
      Except.ok (gostr ("travis:default")) := by
  refine ⟨?_, by rfl, by rfl⟩
  intro language images
  show (match findDockerImageByTag (searchTagCandidates language) images with
    | Except.ok r => Except.ok r.2
    | Except.error e => Except.error e) = selectSpec language images
  rw [findDockerImageByTag_snd]
  rfl

/-- Claim C6, counterexample to the claim as stated: when
`CreateContainer` fails returning a nil container handle (as the docker
client does on an API error), `Start` does not reach its error-return
path — the assignment `container.Config = dockerConfig` dereferences the
nil handle first, so the call aborts instead of returning the creation
error. -/
theorem start_create_failure_cex :
    (dockerProvider.Start 1 [false] envCreateNil).result = none ∧
    (dockerProvider.Start 1 [false] envCreateNil).result ≠
      some (Except.error ("create failed")) ∧
    envCreateNil.createErr = some ("create failed") := by
  refine ⟨rfl, ?_, rfl⟩
  intro hx
  rw [show (dockerProvider.Start 1 [false] envCreateNil).result = none from rfl] at hx
  exact Option.noConfusion hx

/-- Claim C6 (amended): whenever container creation fails during `Start`
after a successful CPU-set checkout and the runtime returned a (partial)
container handle, `Start` returns the creation error, attempts a
best-effort removal of that container whose own error is logged and never
propagated (the outcome is the same for every removal result), and
leaves the pool exactly as it was after the checkout — the allocated
indices are not released on this path. -/
theorem start_create_failure_cleanup (runCPUs : Nat) (pool pool₁ : List Bool)
    (env : StartEnv) (idName : GoStr × GoStr) (s cid : GoStr) (e : String)
    (hres : resolveImageForStart env = Except.ok idName)
    (hco : checkoutCPUSets runCPUs pool = (Except.ok s, pool₁))
    (hcr : env.createResult = some cid)
    (hce : env.createErr = some e) :
    dockerProvider.Start runCPUs pool env =
      ⟨some (Except.error e), pool₁,
        [GoEffect.createContainer, GoEffect.removeContainer cid]⟩ := by
  have hS : dockerProvider.Start runCPUs pool env =
      startWithCPUSets env idName.2 s pool₁ := by
    unfold dockerProvider.Start
    rw [hres, hco]
  rw [hS]
  unfold startWithCPUSets
  rw [hcr, hce]

/-- Claim C6, witness: a creation failure with a returned handle and a
failing best-effort removal still surfaces only the creation error, with
the checked-out slot kept allocated. -/
theorem start_create_failure_cleanup_witness :
    resolveImageForStart envCreateFailed = Except.ok (gostr ("img"), gostr ("img")) ∧
    checkoutCPUSets 1 [false] = (Except.ok (gostr ("0")), [true]) ∧
    envCreateFailed.createResult = some (gostr ("abc")) ∧
    envCreateFailed.createErr = some ("boom") ∧
    envCreateFailed.removeErr = some ("remove also failed") ∧
    dockerProvider.Start 1 [false] envCreateFailed =
      ⟨some (Except.error ("boom")), [true],
        [GoEffect.createContainer, GoEffect.removeContainer (gostr ("abc"))]⟩ :=
  ⟨by rfl, by rfl, rfl, rfl, rfl,
    start_create_failure_cleanup 1 [false] [true] envCreateFailed
      (gostr ("img"), gostr ("img")) (gostr ("0")) (gostr ("abc")) "boom"
      (by rfl) (by rfl) rfl rfl⟩

/-- Claim C8: a secure-shell script upload onto a target whose file
already exists fails with the `ErrStaleVM` sentinel (a constructor
distinct from connection and wrapped transport errors) and returns the
file system unchanged — the existing file is not overwritten; any other
upload failure is wrapped as "couldn't upload build script" and
surfaced. -/
theorem uploadScriptSCP_stale (fs : RemoteFS) (script : List Nat)
    (uploadErr : Option String) (e : String) :
    ((fs (gostr ("build.sh"))).isSome = true →
      dockerInstance.uploadScriptSCP none fs uploadErr script =
        (some UploadSCPError.staleVM, fs)) ∧
    (fs (gostr ("build.sh")) = none → uploadErr = some e →
      dockerInstance.uploadScriptSCP none fs uploadErr script =
        (some (UploadSCPError.wrapped ("couldn't upload build script: " ++ e)), fs)) := by
  constructor
  · intro hex
    simp [dockerInstance.uploadScriptSCP, Connection.UploadFile, hex]
  · intro hnone he
    simp [dockerInstance.uploadScriptSCP, Connection.UploadFile, hnone, he]

/-- Claim C8, witness: uploading onto an existing `build.sh` yields the
stale sentinel and leaves the file system untouched; the same failing
transport on an empty file system yields only the wrapped error. -/
theorem uploadScriptSCP_stale_witness :
    (fsExisting (gostr ("build.sh"))).isSome = true ∧
    dockerInstance.uploadScriptSCP none fsExisting (some ("io failure")) [2] =
      (some UploadSCPError.staleVM, fsExisting) ∧
    fsEmpty (gostr ("build.sh")) = none ∧
    dockerInstance.uploadScriptSCP none fsEmpty (some ("io failure")) [2] =
      (some (UploadSCPError.wrapped ("couldn't upload build script: " ++ "io failure")),
        fsEmpty) :=
  ⟨by decide,
    (uploadScriptSCP_stale fsExisting [2] (some ("io failure")) "io failure").1 (by decide),
    rfl,
    (uploadScriptSCP_stale fsEmpty [2] (some ("io failure")) "io failure").2 rfl rfl⟩

/-- Claim C9: an Instance's identity string is derived only from the
first seven characters of the container identifier joined by a colon with
the resolved image name (container identifiers are at least seven
characters — docker identifiers are 64 hex digits; on a shorter one the
Go slice `ID[0:7]` would panic); an Instance with no container handle
reports the fixed sentinel identity. -/
theorem instance_id_format (cid imageName : GoStr) (h : 7 ≤ cid.length) :
    dockerInstance.ID (some cid) imageName =
      some (cid.take 7 ++ ':' :: imageName) ∧
    dockerInstance.ID none imageName = some (gostr ("\x7bunidentified\x7d")) :=
  ⟨by
    show (if 7 ≤ cid.length then some (cid.take 7 ++ ':' :: imageName) else none) =
      some (cid.take 7 ++ ':' :: imageName)
    rw [if_pos h], rfl⟩

/-- Claim C9, witness: a ten-character identifier is cut to its first
seven characters and joined with the image name; the sentinel is
reported for an absent handle. -/
theorem instance_id_format_witness :
    7 ≤ (gostr ("abcdef0123")).length ∧
    dockerInstance.ID (some (gostr ("abcdef0123"))) (gostr ("ruby")) =
      some ((gostr ("abcdef0123")).take 7 ++ ':' :: gostr ("ruby")) ∧
    dockerInstance.ID (some (gostr ("abcdef0123"))) (gostr ("ruby")) =
      some (gostr ("abcdef0:ruby")) ∧
    dockerInstance.ID none (gostr ("ruby")) = some (gostr ("\x7bunidentified\x7d")) :=
  ⟨by decide,
    (instance_id_format (gostr ("abcdef0123")) (gostr ("ruby")) (by decide)).1,
    by rfl,
    (instance_id_format (gostr ("abcdef0123")) (gostr ("ruby")) (by decide)).2⟩
